import Mathlib

/-!
Verification of the LearnHub course-catalog application's progress tracker.

The development shallowly embeds the parts of the code the claims are
about:

* the `user_courses` table and its `UNIQUE(user_id, course_id)` constraint
  (SQL migration, `src/unnamed/part_000`);
* the `handleToggleComplete` handler of the course-detail page
  (`src/unnamed/part_005`, lines 115-181), including its early
  unauthenticated return, the update branch keyed off the component's
  cached `userCourse` state, and the insert branch;
* `validateInputs`, `handleSignUp` and `handleLogin` of the auth page
  (`src/unnamed/part_001`).

Identifiers (uuids) are modelled as `Nat`; timestamps as `Nat`; the store
is the list of rows of `user_courses`.  External collaborators (Supabase
transport, zod's email regex) are modelled as parameters: a `writeFails`
flag injects a transport failure on the single write a toggle performs,
and the zod email predicate is an abstract `String → Bool`.
-/

/-- A row of the `user_courses` table (migration `part_000`, lines 21-29):
`id`, `user_id`, `course_id`, `completed` (default false), `completed_at`
(nullable), `created_at`. -/
structure ProgressRecord where
  rid : Nat
  user_id : Nat
  course_id : Nat
  completed : Bool
  completed_at : Option Nat
  created_at : Nat
  deriving Repr, DecidableEq

/-- The predicate the course-detail page uses to fetch the user's progress
row: `.eq("user_id", uid).eq("course_id", cid)` (`part_005`, lines 69-74). -/
def matchesPair (uid cid : Nat) (r : ProgressRecord) : Bool :=
  r.user_id == uid && r.course_id == cid

/-- `getRecord`: the `maybeSingle` read of the progress row for a
(principal, course) pair (`part_005`, lines 69-74). -/
def findRecord (store : List ProgressRecord) (uid cid : Nat) :
    Option ProgressRecord :=
  store.find? (matchesPair uid cid)

/-- Whether the store already holds a row for the pair — what the
`UNIQUE(user_id, course_id)` constraint of `part_000` line 28 checks. -/
def hasPair (store : List ProgressRecord) (uid cid : Nat) : Bool :=
  (findRecord store uid cid).isSome

/-- Store-level errors of the Supabase data layer relevant here. -/
inductive StoreError where
  | conflict
  | unavailable
  deriving Repr, DecidableEq

/-- `INSERT INTO user_courses`: fails with a uniqueness `conflict` when a
row for `(user_id, course_id)` already exists (the `UNIQUE` constraint),
otherwise appends the row and echoes it back (the `.select().single()` of
`part_005`, lines 148-157). -/
def insertUserCourse (store : List ProgressRecord) (r : ProgressRecord) :
    Except StoreError (List ProgressRecord × ProgressRecord) :=
  if hasPair store r.user_id r.course_id then .error .conflict
  else .ok (store ++ [r], r)

/-- The per-row effect of `UPDATE user_courses SET completed = c,
completed_at = ca WHERE id = rid`: rows with a matching id get the new
column values, all other rows (and all other columns) are untouched. -/
def updateRow (rid : Nat) (c : Bool) (ca : Option Nat)
    (r : ProgressRecord) : ProgressRecord :=
  if r.rid == rid then { r with completed := c, completed_at := ca } else r

/-- `UPDATE user_courses SET completed = c, completed_at = ca WHERE id = rid`
(`part_005`, lines 130-136). -/
def updateUserCourse (store : List ProgressRecord) (rid : Nat)
    (c : Bool) (ca : Option Nat) : List ProgressRecord :=
  store.map (updateRow rid c ca)

/-- Outcome of one `handleToggleComplete` invocation:
`unauthenticated` is the early `!user` branch (toast + `navigate("/auth")`,
lines 117-124), `success` the success-toast path, `failure e` the `catch`
branch showing the error toast (lines 171-177). -/
inductive ToggleOutcome where
  | unauthenticated
  | success
  | failure (e : StoreError)
  deriving Repr, DecidableEq

/-- Audit entry for a committed store mutation issued by the handler. -/
inductive Mutation where
  | create (r : ProgressRecord)
  | update (rid : Nat) (c : Bool) (ca : Option Nat)
  deriving Repr, DecidableEq

/-- Result of one `handleToggleComplete` invocation: the outcome, the
store afterwards, the component's `userCourse` state afterwards, and the
list of store mutations that committed. -/
structure ToggleResult where
  outcome : ToggleOutcome
  store : List ProgressRecord
  userCourse : Option ProgressRecord
  muts : List Mutation
  deriving Repr, DecidableEq

/-- `handleToggleComplete` (`part_005`, lines 115-181).

* `user` is the component's authenticated-user state; `none` takes the
  early return (toast + redirect), mutating nothing.
* `userCourse` is the component's cached progress row, loaded at mount or
  by the previous toggle; the handler branches on it (`if (userCourse)`),
  not on a fresh read.
* The update branch writes `completed := !userCourse.completed` and
  `completed_at := !userCourse.completed ? now : null` (lines 130-136),
  then mirrors that into local state with a second `new Date()` call
  (lines 141-145) — hence the two timestamps `nowW` (written) and `nowL`
  (local).
* The insert branch writes a fresh row with `completed = true`,
  `completed_at = now` (lines 148-157) and stores the echoed row locally.
* `writeFails` injects a transport failure on the single write the call
  performs; an error thrown at the write leaves both the store and the
  local state untouched (the `setUserCourse` lines are only reached after
  a successful write). -/
def handleToggleComplete (user : Option Nat)
    (userCourse : Option ProgressRecord) (store : List ProgressRecord)
    (courseId newId nowW nowL : Nat) (writeFails : Bool) : ToggleResult :=
  match user with
  | none => ⟨.unauthenticated, store, userCourse, []⟩
  | some uid =>
    match userCourse with
    | some uc =>
      if writeFails then ⟨.failure .unavailable, store, some uc, []⟩
      else
        let c := !uc.completed
        let ca : Option Nat := if c then some nowW else none
        ⟨.success, updateUserCourse store uc.rid c ca,
          some { uc with
                  completed := c,
                  completed_at := if c then some nowL else none },
          [.update uc.rid c ca]⟩
    | none =>
      if writeFails then ⟨.failure .unavailable, store, none, []⟩
      else
        let r : ProgressRecord :=
          ⟨newId, uid, courseId, true, some nowW, nowW⟩
        match insertUserCourse store r with
        | .error e => ⟨.failure e, store, none, []⟩
        | .ok (s2, r2) => ⟨.success, s2, some r2, [.create r2]⟩

/-- Completion status the UI derives for a pair: `userCourse?.completed`
with a missing row rendered as not completed (`part_005`, lines 274-275). -/
def completionStatus (store : List ProgressRecord) (uid cid : Nat) : Bool :=
  match findRecord store uid cid with
  | some r => r.completed
  | none => false

/-- One client session repeatedly pressing the toggle button, starting
from `NOT_STARTED` (empty store, no cached row), with every write
succeeding: `n` invocations of `handleToggleComplete`. -/
def toggleIter (uid cid newId nowW nowL : Nat) :
    Nat → List ProgressRecord × Option ProgressRecord
  | 0 => ([], none)
  | n + 1 =>
    let s := toggleIter uid cid newId nowW nowL n
    let res := handleToggleComplete (some uid) s.2 s.1 cid newId nowW nowL false
    (res.store, res.userCourse)

/-- The pairing of `completed` with `completed_at` the spec's invariant is
about: the flag is set exactly when the timestamp is present. -/
def timestampConsistent (r : ProgressRecord) : Prop :=
  r.completed = r.completed_at.isSome

/-- `timestampConsistent` lifted to the component's optional cached row. -/
def timestampConsistentOpt : Option ProgressRecord → Prop
  | none => True
  | some r => timestampConsistent r

/-- At most one row per `(user_id, course_id)` pair — the property the
`UNIQUE(user_id, course_id)` constraint of the migration enforces. -/
def uniquePairs (store : List ProgressRecord) : Prop :=
  store.Pairwise fun a b => ¬(a.user_id = b.user_id ∧ a.course_id = b.course_id)

/-- A call issued to the identity provider (`supabase.auth`) by the auth
page (`part_001`): account creation or password sign-in. -/
inductive AuthCall where
  | signUp (email password : String)
  | signInWithPassword (email password : String)
  deriving Repr, DecidableEq

/-- `validateInputs` (`part_001`, lines 70-85): parse the email with
`emailSchema` (`z.string().email()` — the zod regex is external library
code, abstracted as the predicate `emailOk`), then the password with
`passwordSchema` (`z.string().min(6)`); any parse failure yields `false`
(and a toast), both passing yields `true`. -/
def validateInputs (emailOk : String → Bool) (email password : String) :
    Bool :=
  emailOk email && decide (6 ≤ password.length)

/-- `handleSignUp` (`part_001`, lines 100-132): returns before any
provider call when `validateInputs` fails, otherwise issues exactly one
`supabase.auth.signUp` with the trimmed email.  The returned list holds
the provider calls made. -/
def handleSignUp (emailOk : String → Bool) (email password : String) :
    List AuthCall :=
  if validateInputs emailOk email password then
    [.signUp email.trim password]
  else []

/-- `handleLogin` (`part_001`, lines 147-173): returns before any provider
call when `validateInputs` fails, otherwise issues exactly one
`supabase.auth.signInWithPassword` with the trimmed email. -/
def handleLogin (emailOk : String → Bool) (email password : String) :
    List AuthCall :=
  if validateInputs emailOk email password then
    [.signInWithPassword email.trim password]
  else []

/-- Spec-mandated behaviour (stated from the spec's words, for comparison
with the code): every toggle of an existing pair decides the new
completion value from the just-read store row — so, with the write
succeeding, the stored completion after the call is the negation of the
store truth read at its start, whatever the component's cached row says. -/
def specMandate_toggleUsesStoreTruth : Prop :=
  ∀ (uid : Nat) (uc r : ProgressRecord) (store : List ProgressRecord)
    (cid nid nW nL : Nat),
    findRecord store uid cid = some r →
    completionStatus
      (handleToggleComplete (some uid) (some uc) store cid nid nW nL
        false).store uid cid = !r.completed

/-- Spec-mandated behaviour (stated from the spec's words, for comparison
with the code): a uniqueness `Conflict` on the create path is absorbed by
re-reading and retrying the update path once, so when nothing else fails
a toggle never surfaces `Conflict` to its caller. -/
def specMandate_conflictRecoveredByRetry : Prop :=
  ∀ (uid : Nat) (store : List ProgressRecord) (cid nid nW nL : Nat),
    hasPair store uid cid = true →
    (handleToggleComplete (some uid) none store cid nid nW nL
      false).outcome ≠ .failure .conflict

/-- The single row the store holds after `n ≥ 1` toggles of one session
that started from `NOT_STARTED`. -/
def iterRecord (uid cid newId nowW n : Nat) : ProgressRecord :=
  ⟨newId, uid, cid, decide (n % 2 = 1),
    if decide (n % 2 = 1) then some nowW else none, nowW⟩
/-- The row rewrite applied by `updateUserCourse` never touches the
`user_id`/`course_id` columns, so the fetch predicate is unchanged. -/
theorem matchesPair_updateRow (uid cid rid : Nat) (c : Bool) (ca : Option Nat)
    (r : ProgressRecord) :
    matchesPair uid cid (updateRow rid c ca r) = matchesPair uid cid r := by
  unfold updateRow
  split <;> rfl

/-- Reading a pair after an `UPDATE ... WHERE id = rid` returns the row the
read would have returned before, rewritten when its id matches. -/
theorem findRecord_updateUserCourse (store : List ProgressRecord)
    (rid : Nat) (c : Bool) (ca : Option Nat) (uid cid : Nat) :
    findRecord (updateUserCourse store rid c ca) uid cid =
      (findRecord store uid cid).map (updateRow rid c ca) := by
  induction store with
  | nil => rfl
  | cons r rest ih =>
    simp only [findRecord, updateUserCourse, List.map_cons] at *
    by_cases h : matchesPair uid cid r = true
    · rw [List.find?_cons_of_pos _ (by rw [matchesPair_updateRow]; exact h),
        List.find?_cons_of_pos _ h]
      rfl
    · have h2 : ¬ matchesPair uid cid (updateRow rid c ca r) = true := by
        rw [matchesPair_updateRow]; exact h
      rw [List.find?_cons_of_neg _ h2, List.find?_cons_of_neg _ h]
      exact ih

/-- Claim C6: a toggle with no authenticated principal takes the early
return (sign-in prompt and redirect), leaving the store and the local view
untouched and committing no mutation. -/
theorem toggle_unauthenticated_no_mutation
    (uc : Option ProgressRecord) (store : List ProgressRecord)
    (cid nid nW nL : Nat) (w : Bool) :
    handleToggleComplete none uc store cid nid nW nL w =
      ⟨.unauthenticated, store, uc, []⟩ := rfl

/-- Claim C4: when the progress row exists (and is the cached row), a
successful toggle rewrites that row in place: from `completed = false` to
`completed = true` with `completed_at` set to the current time, and from
`completed = true` to `completed = false` with `completed_at` cleared;
the local view follows. -/
theorem toggle_updates_record_in_place
    (uid : Nat) (uc : ProgressRecord) (store : List ProgressRecord)
    (cid nid nW nL : Nat) (h : uc ∈ store) :
    (handleToggleComplete (some uid) (some uc) store cid nid nW nL false).outcome
      = .success ∧
    (uc.completed = false →
      { uc with completed := true, completed_at := some nW } ∈
        (handleToggleComplete (some uid) (some uc) store cid nid nW nL false).store ∧
      (handleToggleComplete (some uid) (some uc) store cid nid nW nL false).userCourse
        = some { uc with completed := true, completed_at := some nL }) ∧
    (uc.completed = true →
      { uc with completed := false, completed_at := none } ∈
        (handleToggleComplete (some uid) (some uc) store cid nid nW nL false).store ∧
      (handleToggleComplete (some uid) (some uc) store cid nid nW nL false).userCourse
        = some { uc with completed := false, completed_at := none }) := by
  refine ⟨rfl, ?_, ?_⟩ <;> intro hc <;> constructor
  · show _ ∈ updateUserCourse store uc.rid (!uc.completed)
      (if !uc.completed then some nW else none)
    rw [hc]
    have hm := List.mem_map_of_mem (updateRow uc.rid true (some nW)) h
    simpa [updateUserCourse, updateRow] using hm
  · show some ({ uc with
        completed := !uc.completed,
        completed_at := if !uc.completed then some nL else none } :
          ProgressRecord) = _
    rw [hc]
    rfl
  · show _ ∈ updateUserCourse store uc.rid (!uc.completed)
      (if !uc.completed then some nW else none)
    rw [hc]
    have hm := List.mem_map_of_mem (updateRow uc.rid false none) h
    simpa [updateUserCourse, updateRow] using hm
  · show some ({ uc with
        completed := !uc.completed,
        completed_at := if !uc.completed then some nL else none } :
          ProgressRecord) = _
    rw [hc]
    rfl

/-- Witness for `toggle_updates_record_in_place` at a concrete input. -/
theorem toggle_updates_record_in_place_witness :
    (handleToggleComplete (some 1) (some ⟨0, 1, 2, false, none, 0⟩)
        [⟨0, 1, 2, false, none, 0⟩] 2 7 10 11 false).outcome = .success ∧
    ((⟨0, 1, 2, false, none, 0⟩ : ProgressRecord).completed = false →
      (⟨0, 1, 2, true, some 10, 0⟩ : ProgressRecord) ∈
        (handleToggleComplete (some 1) (some ⟨0, 1, 2, false, none, 0⟩)
          [⟨0, 1, 2, false, none, 0⟩] 2 7 10 11 false).store ∧
      (handleToggleComplete (some 1) (some ⟨0, 1, 2, false, none, 0⟩)
          [⟨0, 1, 2, false, none, 0⟩] 2 7 10 11 false).userCourse
        = some ⟨0, 1, 2, true, some 11, 0⟩) ∧
    ((⟨0, 1, 2, false, none, 0⟩ : ProgressRecord).completed = true →
      (⟨0, 1, 2, false, none, 0⟩ : ProgressRecord) ∈
        (handleToggleComplete (some 1) (some ⟨0, 1, 2, false, none, 0⟩)
          [⟨0, 1, 2, false, none, 0⟩] 2 7 10 11 false).store ∧
      (handleToggleComplete (some 1) (some ⟨0, 1, 2, false, none, 0⟩)
          [⟨0, 1, 2, false, none, 0⟩] 2 7 10 11 false).userCourse
        = some ⟨0, 1, 2, false, none, 0⟩) :=
  toggle_updates_record_in_place 1 ⟨0, 1, 2, false, none, 0⟩
    [⟨0, 1, 2, false, none, 0⟩] 2 7 10 11 (by simp)

/-- Claim C5: both branches of the toggle write `completed` and
`completed_at` together, so the invariant "completed iff timestamp
present" is preserved for every stored row and for the local view. -/
theorem toggle_preserves_timestamp_invariant
    (user : Option Nat) (uc : Option ProgressRecord)
    (store : List ProgressRecord) (cid nid nW nL : Nat) (w : Bool)
    (hs : ∀ r ∈ store, timestampConsistent r)
    (hu : timestampConsistentOpt uc) :
    (∀ r ∈ (handleToggleComplete user uc store cid nid nW nL w).store,
      timestampConsistent r) ∧
    timestampConsistentOpt
      (handleToggleComplete user uc store cid nid nW nL w).userCourse := by
  cases user with
  | none => exact ⟨hs, hu⟩
  | some uid =>
    cases uc with
    | some u =>
      cases w with
      | true => exact ⟨hs, hu⟩
      | false =>
        constructor
        · intro r hr
          replace hr : r ∈ updateUserCourse store u.rid (!u.completed)
              (if !u.completed then some nW else none) := hr
          rw [updateUserCourse, List.mem_map] at hr
          obtain ⟨r0, hr0, rfl⟩ := hr
          rw [updateRow]
          by_cases hid : (r0.rid == u.rid) = true
          · rw [if_pos hid]
            cases u.completed <;> simp [timestampConsistent]
          · rw [if_neg hid]
            exact hs r0 hr0
        · show timestampConsistentOpt (some { u with
            completed := !u.completed,
            completed_at := if !u.completed then some nL else none })
          cases u.completed <;> simp [timestampConsistentOpt, timestampConsistent]
    | none =>
      cases w with
      | true => exact ⟨hs, hu⟩
      | false =>
        by_cases hp : hasPair store uid cid = true
        · have hstep : handleToggleComplete (some uid) none store cid nid nW nL false
              = ⟨.failure .conflict, store, none, []⟩ := by
            simp [handleToggleComplete, insertUserCourse, hp]
          rw [hstep]
          exact ⟨hs, trivial⟩
        · have hstep : handleToggleComplete (some uid) none store cid nid nW nL false
              = ⟨.success, store ++ [⟨nid, uid, cid, true, some nW, nW⟩],
                  some ⟨nid, uid, cid, true, some nW, nW⟩,
                  [.create ⟨nid, uid, cid, true, some nW, nW⟩]⟩ := by
            simp [handleToggleComplete, insertUserCourse, hp]
          rw [hstep]
          refine ⟨?_, ?_⟩
          · intro r hr
            rcases List.mem_append.mp hr with hr | hr
            · exact hs r hr
            · rw [List.mem_singleton] at hr
              subst hr
              simp [timestampConsistent]
          · show timestampConsistent ⟨nid, uid, cid, true, some nW, nW⟩
            simp [timestampConsistent]

/-- Witness for `toggle_preserves_timestamp_invariant` at a concrete
input. -/
theorem toggle_preserves_timestamp_invariant_witness :
    (∀ r ∈ (handleToggleComplete (some 1) none [] 2 7 10 11 false).store,
      timestampConsistent r) ∧
    timestampConsistentOpt
      (handleToggleComplete (some 1) none [] 2 7 10 11 false).userCourse :=
  toggle_preserves_timestamp_invariant (some 1) none [] 2 7 10 11 false
    (by simp) trivial

/-- Evaluation of the update branch: authenticated user, cached row
present, write succeeds. -/
theorem handleToggle_update_eq (uid : Nat) (uc : ProgressRecord)
    (store : List ProgressRecord) (cid nid nW nL : Nat) :
    handleToggleComplete (some uid) (some uc) store cid nid nW nL false =
      ⟨.success,
        updateUserCourse store uc.rid (!uc.completed)
          (if !uc.completed then some nW else none),
        some { uc with
                completed := !uc.completed,
                completed_at := if !uc.completed then some nL else none },
        [.update uc.rid (!uc.completed)
          (if !uc.completed then some nW else none)]⟩ := rfl

/-- Evaluation of the create branch when the pair already has a row: the
insert hits the uniqueness constraint and the handler lands in its catch
branch with nothing written. -/
theorem handleToggle_conflict_eq (uid : Nat) (store : List ProgressRecord)
    (cid nid nW nL : Nat) (hp : hasPair store uid cid = true) :
    handleToggleComplete (some uid) none store cid nid nW nL false =
      ⟨.failure .conflict, store, none, []⟩ := by
  simp [handleToggleComplete, insertUserCourse, hp]

/-- Evaluation of the create branch when no row exists yet: one row is
inserted with `completed = true` and a timestamp, and echoed locally. -/
theorem handleToggle_insert_eq (uid : Nat) (store : List ProgressRecord)
    (cid nid nW nL : Nat) (hp : ¬ hasPair store uid cid = true) :
    handleToggleComplete (some uid) none store cid nid nW nL false =
      ⟨.success, store ++ [⟨nid, uid, cid, true, some nW, nW⟩],
        some ⟨nid, uid, cid, true, some nW, nW⟩,
        [.create ⟨nid, uid, cid, true, some nW, nW⟩]⟩ := by
  simp [handleToggleComplete, insertUserCourse, hp]

/-- Claim C7: a successful toggle commits exactly one store mutation (one
create or one update, never both), and every failure path commits none
and leaves the store as it was. -/
theorem toggle_exactly_one_mutation (user : Option Nat)
    (uc : Option ProgressRecord) (store : List ProgressRecord)
    (cid nid nW nL : Nat) (w : Bool) :
    ((handleToggleComplete user uc store cid nid nW nL w).outcome = .success →
      (handleToggleComplete user uc store cid nid nW nL w).muts.length = 1) ∧
    ((handleToggleComplete user uc store cid nid nW nL w).outcome ≠ .success →
      (handleToggleComplete user uc store cid nid nW nL w).muts = [] ∧
      (handleToggleComplete user uc store cid nid nW nL w).store = store) := by
  cases user with
  | none => exact ⟨fun h => ToggleOutcome.noConfusion h, fun _ => ⟨rfl, rfl⟩⟩
  | some uid =>
    cases uc with
    | some u =>
      cases w with
      | true => exact ⟨fun h => ToggleOutcome.noConfusion h, fun _ => ⟨rfl, rfl⟩⟩
      | false => exact ⟨fun _ => rfl, fun h => absurd rfl h⟩
    | none =>
      cases w with
      | true => exact ⟨fun h => ToggleOutcome.noConfusion h, fun _ => ⟨rfl, rfl⟩⟩
      | false =>
        by_cases hp : hasPair store uid cid = true
        · rw [handleToggle_conflict_eq uid store cid nid nW nL hp]
          exact ⟨fun h => ToggleOutcome.noConfusion h, fun _ => ⟨rfl, rfl⟩⟩
        · rw [handleToggle_insert_eq uid store cid nid nW nL hp]
          exact ⟨fun _ => rfl, fun h => absurd rfl h⟩

/-- Witness for `toggle_exactly_one_mutation` at a concrete input. -/
theorem toggle_exactly_one_mutation_witness :
    (handleToggleComplete (some 1) none [] 2 7 10 11 false).muts.length = 1 :=
  (toggle_exactly_one_mutation (some 1) none [] 2 7 10 11 false).1 (by decide)

/-- Claim C10: whenever a toggle does not succeed — no principal, a
transport failure on the write, or a uniqueness conflict — the component's
local `userCourse` view keeps its pre-call value; it is reassigned only
after the corresponding write succeeded. -/
theorem toggle_failure_leaves_local_view (user : Option Nat)
    (uc : Option ProgressRecord) (store : List ProgressRecord)
    (cid nid nW nL : Nat) (w : Bool)
    (h : (handleToggleComplete user uc store cid nid nW nL w).outcome
      ≠ .success) :
    (handleToggleComplete user uc store cid nid nW nL w).userCourse = uc := by
  cases user with
  | none => rfl
  | some uid =>
    cases uc with
    | some u =>
      cases w with
      | true => rfl
      | false => exact absurd rfl h
    | none =>
      cases w with
      | true => rfl
      | false =>
        by_cases hp : hasPair store uid cid = true
        · rw [handleToggle_conflict_eq uid store cid nid nW nL hp]
        · rw [handleToggle_insert_eq uid store cid nid nW nL hp] at h
          exact absurd rfl h

/-- Witness for `toggle_failure_leaves_local_view` at a concrete input. -/
theorem toggle_failure_leaves_local_view_witness :
    (handleToggleComplete (some 1) (some ⟨0, 1, 2, false, none, 0⟩)
        [⟨0, 1, 2, false, none, 0⟩] 2 7 10 11 true).userCourse
      = some ⟨0, 1, 2, false, none, 0⟩ :=
  toggle_failure_leaves_local_view (some 1) (some ⟨0, 1, 2, false, none, 0⟩)
    [⟨0, 1, 2, false, none, 0⟩] 2 7 10 11 true (by decide)

/-- An `UPDATE ... WHERE id = rid` never rewrites the `user_id` column. -/
theorem updateRow_user_id (rid : Nat) (c : Bool) (ca : Option Nat)
    (r : ProgressRecord) : (updateRow rid c ca r).user_id = r.user_id := by
  rw [updateRow]
  split <;> rfl

/-- An `UPDATE ... WHERE id = rid` never rewrites the `course_id` column. -/
theorem updateRow_course_id (rid : Nat) (c : Bool) (ca : Option Nat)
    (r : ProgressRecord) : (updateRow rid c ca r).course_id = r.course_id := by
  rw [updateRow]
  split <;> rfl

/-- A failed pair lookup means no stored row matches the pair. -/
theorem not_hasPair_no_match (store : List ProgressRecord) (uid cid : Nat)
    (hp : ¬ hasPair store uid cid = true) :
    ∀ a ∈ store, ¬(a.user_id = uid ∧ a.course_id = cid) := by
  have hnone : findRecord store uid cid = none := by
    cases hfr : findRecord store uid cid with
    | none => rfl
    | some r => exact absurd (by simp [hasPair, hfr]) hp
  rw [findRecord, List.find?_eq_none] at hnone
  intro a ha hpair
  exact hnone a ha (by simp [matchesPair, hpair.1, hpair.2])

/-- Claim C8: the store keeps at most one row per `(user_id, course_id)`
pair.  An insert for an already-present pair is rejected with `conflict`
(the `UNIQUE(user_id, course_id)` constraint), and every toggle, on
either branch, preserves pairwise distinctness of the stored pairs. -/
theorem user_courses_unique_per_pair (user : Option Nat)
    (uc : Option ProgressRecord) (store : List ProgressRecord)
    (cid nid nW nL : Nat) (w : Bool) (r : ProgressRecord)
    (hstore : uniquePairs store) :
    (hasPair store r.user_id r.course_id = true →
      insertUserCourse store r = .error .conflict) ∧
    uniquePairs (handleToggleComplete user uc store cid nid nW nL w).store := by
  constructor
  · intro hp
    simp [insertUserCourse, hp]
  · cases user with
    | none => exact hstore
    | some uid =>
      cases uc with
      | some u =>
        cases w with
        | true => exact hstore
        | false =>
          show uniquePairs (updateUserCourse store u.rid (!u.completed)
            (if !u.completed then some nW else none))
          rw [uniquePairs, updateUserCourse, List.pairwise_map]
          refine hstore.imp ?_
          intro a b hab
          rw [updateRow_user_id, updateRow_user_id,
            updateRow_course_id, updateRow_course_id]
          exact hab
      | none =>
        cases w with
        | true => exact hstore
        | false =>
          by_cases hp : hasPair store uid cid = true
          · rw [handleToggle_conflict_eq uid store cid nid nW nL hp]
            exact hstore
          · rw [handleToggle_insert_eq uid store cid nid nW nL hp]
            show uniquePairs (store ++ [⟨nid, uid, cid, true, some nW, nW⟩])
            rw [uniquePairs, List.pairwise_append]
            refine ⟨hstore, List.pairwise_singleton _ _, ?_⟩
            intro a ha b hb
            rw [List.mem_singleton] at hb
            subst hb
            exact not_hasPair_no_match store uid cid hp a ha
  
/-- Witness for `user_courses_unique_per_pair` at a concrete input. -/
theorem user_courses_unique_per_pair_witness :
    (hasPair [⟨0, 1, 1, true, some 5, 0⟩]
        (⟨9, 1, 1, false, none, 3⟩ : ProgressRecord).user_id
        (⟨9, 1, 1, false, none, 3⟩ : ProgressRecord).course_id = true →
      insertUserCourse [⟨0, 1, 1, true, some 5, 0⟩] ⟨9, 1, 1, false, none, 3⟩
        = .error .conflict) ∧
    uniquePairs (handleToggleComplete (some 1) none
      [⟨0, 1, 1, true, some 5, 0⟩] 2 7 10 11 false).store :=
  user_courses_unique_per_pair (some 1) none [⟨0, 1, 1, true, some 5, 0⟩]
    2 7 10 11 false ⟨9, 1, 1, false, none, 3⟩ (by simp [uniquePairs])


/-- Claim C9: when the email fails the provider-syntax check or the
password is shorter than 6 characters, both the sign-up and the login
handler stop at client-side validation and make no call to the identity
provider. -/
theorem invalid_inputs_make_no_provider_call (emailOk : String → Bool)
    (email password : String)
    (h : emailOk email = false ∨ password.length < 6) :
    handleSignUp emailOk email password = [] ∧
    handleLogin emailOk email password = [] := by
  have hv : validateInputs emailOk email password = false := by
    rcases h with h | h
    · simp [validateInputs, h]
    · have : ¬ 6 ≤ password.length := Nat.not_le.mpr h
      simp [validateInputs, this]
  rw [handleSignUp, handleLogin, hv]
  exact ⟨rfl, rfl⟩

/-- Witness for `invalid_inputs_make_no_provider_call` at a concrete
input: a five-character password is rejected whatever the email. -/
theorem invalid_inputs_make_no_provider_call_witness :
    handleSignUp (fun s => s.length > 0) "user at example.com" "12345" = [] ∧
    handleLogin (fun s => s.length > 0) "user at example.com" "12345" = [] :=
  invalid_inputs_make_no_provider_call (fun s => s.length > 0)
    "user at example.com" "12345" (Or.inr (by decide))


/-- Counterexample to claim C1: with the store row for the pair already at
`completed = true` but the component's cached row still at
`completed = false` (stale since mount), the handler writes
`!cached = true` — not the negation of the store truth. -/
theorem toggle_uses_store_truth_counterexample :
    ¬ specMandate_toggleUsesStoreTruth := by
  intro h
  have hc := h 1 ⟨0, 1, 1, false, none, 0⟩ ⟨0, 1, 1, true, some 5, 0⟩
    [⟨0, 1, 1, true, some 5, 0⟩] 1 7 10 11 (by decide)
  exact absurd hc (by decide)

/-- Claim C1 as amended: the toggle never re-reads the store; it decides
the new completion value as the negation of the cached in-memory
`userCourse.completed`, and writes exactly that value over the stored row
with the cached row's id — even when the store truth for the pair
currently disagrees with the cache. -/
theorem toggle_uses_cached_completed (uid : Nat) (uc r : ProgressRecord)
    (store : List ProgressRecord) (cid nid nW nL : Nat)
    (hr : findRecord store uid cid = some r) (hrid : r.rid = uc.rid) :
    findRecord
      (handleToggleComplete (some uid) (some uc) store cid nid nW nL
        false).store uid cid =
      some { r with
              completed := !uc.completed,
              completed_at := if !uc.completed then some nW else none } := by
  show findRecord (updateUserCourse store uc.rid (!uc.completed)
    (if !uc.completed then some nW else none)) uid cid = _
  rw [findRecord_updateUserCourse, hr]
  show some (updateRow uc.rid (!uc.completed)
    (if !uc.completed then some nW else none) r) = _
  rw [updateRow, if_pos (by rw [hrid] ; exact beq_self_eq_true _)]

/-- Witness for `toggle_uses_cached_completed` at a concrete input (the
same stale-cache input as the counterexample). -/
theorem toggle_uses_cached_completed_witness :
    findRecord
      (handleToggleComplete (some 1) (some ⟨0, 1, 1, false, none, 0⟩)
        [⟨0, 1, 1, true, some 5, 0⟩] 1 7 10 11 false).store 1 1 =
      some ⟨0, 1, 1, true, some 10, 0⟩ :=
  toggle_uses_cached_completed 1 ⟨0, 1, 1, false, none, 0⟩
    ⟨0, 1, 1, true, some 5, 0⟩ [⟨0, 1, 1, true, some 5, 0⟩] 1 7 10 11
    (by decide) rfl


/-- Counterexample to claim C2: a toggle whose cached view says "no row"
while the store already has one (exactly the lost-creation race the spec
discusses) hits the uniqueness conflict on insert and surfaces it at
once — the single retry that would succeed is never attempted. -/
theorem conflict_retried_once_counterexample :
    ¬ specMandate_conflictRecoveredByRetry := by
  intro h
  exact h 1 [⟨0, 1, 1, true, some 5, 0⟩] 1 7 10 11 (by decide) (by decide)

/-- Claim C2 as amended: when the create path of the toggle hits the
uniqueness conflict, the handler performs no retry of any kind: the
`Conflict` error surfaces directly to the caller, no second read or write
is issued, and the store, the local view and the mutation log are
untouched. -/
theorem toggle_conflict_surfaces_without_retry (uid : Nat)
    (store : List ProgressRecord) (cid nid nW nL : Nat)
    (hp : hasPair store uid cid = true) :
    handleToggleComplete (some uid) none store cid nid nW nL false =
      ⟨.failure .conflict, store, none, []⟩ :=
  handleToggle_conflict_eq uid store cid nid nW nL hp

/-- Witness for `toggle_conflict_surfaces_without_retry` at a concrete
input. -/
theorem toggle_conflict_surfaces_without_retry_witness :
    handleToggleComplete (some 1) none [⟨0, 1, 1, true, some 5, 0⟩]
        1 7 10 11 false =
      ⟨.failure .conflict, [⟨0, 1, 1, true, some 5, 0⟩], none, []⟩ :=
  toggle_conflict_surfaces_without_retry 1 [⟨0, 1, 1, true, some 5, 0⟩]
    1 7 10 11 (by decide)


/-- Toggling flips the parity bit. -/
theorem parity_succ (n : Nat) :
    (decide ((n + 1) % 2 = 1) : Bool) = !decide (n % 2 = 1) := by
  by_cases h : n % 2 = 1
  · have h2 : (n + 1) % 2 = 0 := by omega
    simp [h, h2]
  · have h2 : (n + 1) % 2 = 1 := by omega
    simp [h, h2]

/-- Invariant of the toggle loop: after `n ≥ 1` presses the store holds
exactly the one row `iterRecord n`, and the cached row carries its id and
its completion parity. -/
theorem toggleIter_invariant (uid cid newId nowW nowL : Nat) :
    ∀ n, 1 ≤ n → ∃ u : ProgressRecord,
      (toggleIter uid cid newId nowW nowL n).1 =
        [iterRecord uid cid newId nowW n] ∧
      (toggleIter uid cid newId nowW nowL n).2 = some u ∧
      u.rid = newId ∧ u.completed = decide (n % 2 = 1) := by
  intro n
  induction n with
  | zero => intro h ; omega
  | succ m ih =>
    intro _
    cases m with
    | zero =>
      exact ⟨⟨newId, uid, cid, true, some nowW, nowW⟩, rfl, rfl, rfl, rfl⟩
    | succ k =>
      obtain ⟨u, hst, huc, hrid, hcomp⟩ := ih (by omega)
      have hflip : (!u.completed) = decide ((k + 1 + 1) % 2 = 1) := by
        rw [hcomp, ← parity_succ]
      refine ⟨{ u with
          completed := !u.completed,
          completed_at := if !u.completed then some nowL else none },
        ?_, ?_, ?_, ?_⟩
      · show (handleToggleComplete (some uid)
            (toggleIter uid cid newId nowW nowL (k + 1)).2
            (toggleIter uid cid newId nowW nowL (k + 1)).1
            cid newId nowW nowL false).store = _
        rw [hst, huc, handleToggle_update_eq]
        show updateUserCourse [iterRecord uid cid newId nowW (k + 1)] u.rid
          (!u.completed) (if !u.completed then some nowW else none) = _
        rw [hflip, hrid]
        simp [updateUserCourse, updateRow, iterRecord]
      · show (handleToggleComplete (some uid)
            (toggleIter uid cid newId nowW nowL (k + 1)).2
            (toggleIter uid cid newId nowW nowL (k + 1)).1
            cid newId nowW nowL false).userCourse = _
        rw [hst, huc, handleToggle_update_eq]
      · show u.rid = newId
        exact hrid
      · show (!u.completed) = decide ((k + 1 + 1) % 2 = 1)
        exact hflip

/-- Claim C3: starting from `NOT_STARTED` (no progress row), `n` toggle
presses leave the pair's completion status at the parity of `n` — `false`
after an even number of presses, `true` (COMPLETED) after an odd
number. -/
theorem toggle_parity (uid cid newId nowW nowL n : Nat) :
    completionStatus (toggleIter uid cid newId nowW nowL n).1 uid cid =
      decide (n % 2 = 1) := by
  cases n with
  | zero => rfl
  | succ m =>
    obtain ⟨u, hst, -, -, -⟩ :=
      toggleIter_invariant uid cid newId nowW nowL (m + 1) (by omega)
    rw [hst]
    have hfind : findRecord [iterRecord uid cid newId nowW (m + 1)] uid cid =
        some (iterRecord uid cid newId nowW (m + 1)) := by
      simp [findRecord, matchesPair, iterRecord]
    simp only [completionStatus]
    rw [hfind]
    rfl
